import Mathlib

/-!
Verification of the disk-space probe-and-decide engine of the kURL cluster
migration preflight checker (package `clusterspace`).

The Go implementation file `openebs.go` is not part of the sources available
here; only its test file `pkg/cluster/space/openebs_test.go` is.  Every
definition below is therefore modelled from the specification together with
the behaviour pinned down by the repository's own test assertions; each doc
comment records what was modelled and from which evidence.  Machine integers
(`int64`) are modelled as `Int`; Go byte slices and strings are modelled as
`String` processed through their character lists so that every operation is
computable by the kernel.
-/

namespace ClusterSpace

/-- Splits a character list at every character satisfying `p`, keeping empty
segments (the behaviour of Go's `strings.Split` generalised to a predicate). -/
def splitChars (p : Char → Bool) : List Char → List (List Char)
  | [] => [[]]
  | c :: cs =>
    let r := splitChars p cs
    if p c then [] :: r
    else
      match r with
      | [] => [[c]]
      | w :: ws => (c :: w) :: ws

/-- The lines of a string: Go's per-line reading of the pod log, splitting the
content at every newline character. -/
def linesOf (s : String) : List String :=
  (splitChars (fun c => c = Char.ofNat 10) s.data).map (fun cs => ⟨cs⟩)

/-- Go's `strings.Fields`: the maximal runs of non-whitespace characters of a
string, in order. -/
def fieldsOf (s : String) : List String :=
  ((splitChars (fun c => c.isWhitespace) s.data).filter (fun w => w ≠ [])).map
    (fun cs => ⟨cs⟩)

/-- Go's `strings.TrimSpace`: removes leading and trailing whitespace. -/
def trimSpace (s : String) : String :=
  ⟨(s.data.dropWhile (fun c => c.isWhitespace)).reverse.dropWhile
      (fun c => c.isWhitespace) |>.reverse⟩

/-- Whether the first character of `s` is `c` (Go's
`strings.HasPrefix(s, string(c))` for a one-character prefix). -/
def startsWithChar (s : String) (c : Char) : Bool :=
  match s.data with
  | [] => false
  | d :: _ => d = c

/-- `OpenEBSVolume` carries one node's measured disk usage sample: free and
used bytes of the probed mount, and whether that mount is the node's root
filesystem.  Modelled from the spec (`DiskUsageSample`) and from the literal
`OpenEBSVolume{Free, Used, RootVolume}` fields used by `Test_hasEnoughSpace`. -/
structure OpenEBSVolume where
  Free : Int
  Used : Int
  RootVolume : Bool
  deriving Repr, DecidableEq

/-- Modelled from the spec: the implementation of `hasEnoughSpace` is not in
the available sources, so its behaviour is reconstructed from spec §4.2
together with the assertions of `Test_hasEnoughSpace`, which pin down two
points the spec text does not state: a root-filesystem sample with
`Free = 100` yields a returned free figure of `85` (a 15% safety reduction,
modelled as truncated integer `Free * 85 / 100`, sound for the spec's
invariant `Free ≥ 0`), and the zero sample with `reserved = 0` yields
`sufficient = false`, which forces the comparison to be strict
(`free > reserved`). -/
def hasEnoughSpace (vol : OpenEBSVolume) (reserved : Int) : Int × Bool :=
  let free : Int := if vol.RootVolume then vol.Free * 85 / 100 else vol.Free
  (free, decide (reserved < free))

/-- The mount point contributed by one line of the fstab listing, if any.
Modelled from the spec (§4.1 mount-table parser) corrected by the repository's
own `Test_parseFstabContainerOutput` assertions: blank lines and lines whose
trimmed text begins with `#` are ignored; otherwise the second
whitespace-delimited field is the mount point, and it is kept only when it
begins with `/` (which also drops the `none` swap entries, whose token does
not begin with `/`, and non-absolute fields such as `fuse`). -/
def fstabMountOf (line : String) : Option String :=
  if trimSpace line = "" ∨ startsWithChar (trimSpace line) (Char.ofNat 35) then
    none
  else
    match fieldsOf line with
    | _ :: mp :: _ => if startsWithChar mp (Char.ofNat 47) then some mp else none
    | _ => none

/-- Appends a mount point to the accumulated list unless it is already
present: each distinct mount point is reported at most once, at its first
position of appearance (pinned by the repeated-mount-point test case). -/
def appendMount (acc : List String) (mp : String) : List String :=
  if mp ∈ acc then acc else acc ++ [mp]

/-- One parsing step of the mount-table scan over a single line. -/
def fstabStep (acc : List String) (line : String) : List String :=
  match fstabMountOf line with
  | none => acc
  | some mp => appendMount acc mp

/-- The ordered, first-occurrence-deduplicated mount points of the listing. -/
def fstabMounts (ls : List String) : List String :=
  ls.foldl fstabStep []

/-- Modelled from the spec: `parseFstabContainerOutput` of `openebs.go` is not
in the available sources; it scans the pod log line by line collecting mount
points, and fails with `failed to locate any mount point` when none remain
after filtering (spec §4.1 together with the test's expected outputs). -/
def parseFstabContainerOutput (content : String) : Except String (List String) :=
  let mounts := fstabMounts (linesOf content)
  if mounts = [] then .error "failed to locate any mount point"
  else .ok mounts

/-- The sequence of valid mount-point fields in order of appearance, with
duplicates, written directly from the amended spec words ("the second field
of every non-blank, non-comment line, kept when it begins with a slash"). -/
def fstabSecondFields (ls : List String) : List String :=
  ls.filterMap fstabMountOf

/-- Keeps the first occurrence of every element, in order (the amended spec's
"each distinct mount point at most once, at its first appearance"). -/
def firstOccurrences (l : List String) : List String :=
  l.foldl appendMount []

/-- The value of a run of decimal digit characters, or `none` if any
character is not a decimal digit. -/
def decDigitsVal (cs : List Char) : Option Nat :=
  cs.foldl
    (fun acc c =>
      match acc with
      | none => none
      | some n => if c.isDigit then some (n * 10 + (c.toNat - 48)) else none)
    (some 0)

/-- Go's `strconv.ParseInt(s, 10, 64)` modelled on `Int`: an optional sign
followed by a non-empty run of decimal digits, whose signed value must fit in
a signed 64-bit integer; everything else (in particular unit-suffixed
human-readable sizes such as `"6.9G"`) is rejected with `none`. -/
def parseInt64 (s : String) : Option Int :=
  match s.data with
  | [] => none
  | c :: cs =>
    let neg : Bool := c = Char.ofNat 45
    let ds : List Char :=
      if c = Char.ofNat 45 ∨ c = Char.ofNat 43 then cs else c :: cs
    if ds = [] then none
    else
      match decDigitsVal ds with
      | none => none
      | some n =>
        let v : Int := if neg then -(n : Int) else (n : Int)
        if -(2 ^ 63) ≤ v ∧ v < 2 ^ 63 then some v else none

/-- Whether a line of the df output (given as its whitespace-delimited
fields) is the line carrying the probe's disk usage: at least four fields,
the last of which is exactly the probe mount point `/data`.  The
four-field minimum is pinned by the repository test case `"something weird
/data"`, whose three-field line is not matched (the parse fails with the
locate error rather than a field error). -/
def dfCandidate (w : List String) : Bool :=
  decide (4 ≤ w.length) && decide (w.getLast? = some "/data")

/-- The available-space token of a df line: third field counting from the
end of the line. -/
def dfAvailTok (w : List String) : String :=
  w.reverse.getD 2 ""

/-- The used-space token of a df line: fourth field counting from the end of
the line. -/
def dfUsedTok (w : List String) : String :=
  w.reverse.getD 3 ""

/-- A token rendered with surrounding double quotes, as Go's `%q` verb
renders it inside the parse-error messages. -/
def quoteTok (t : String) : String :=
  "\"" ++ t ++ "\""

/-- The error produced when the available-space column is not a plain
base-10 integer. -/
def dfAvailErr (t : String) : String :=
  "failed to parse " ++ quoteTok t ++ " as available space"

/-- The error produced when the used-space column is not a plain base-10
integer. -/
def dfUsedErr (t : String) : String :=
  "failed to parse " ++ quoteTok t ++ " as used space"

/-- The error produced when no line of the df output matches. -/
def dfLocateErr : String :=
  "failed to locate free space info in pod log"

/-- Extraction from the matched df line: parse the available-space token
first, then the used-space token, each as a plain base-10 64-bit integer,
returning `(free, used)`; the error order (available before used) is pinned
by the repository test whose line has both columns human-readable and which
expects the available-space error. -/
def dfExtract (w : List String) : Except String (Int × Int) :=
  match parseInt64 (dfAvailTok w) with
  | none => .error (dfAvailErr (dfAvailTok w))
  | some free =>
    match parseInt64 (dfUsedTok w) with
    | none => .error (dfUsedErr (dfUsedTok w))
    | some used => .ok (free, used)

/-- The df scan over the per-line field lists: the first candidate line is
extracted; if no line matches, the locate error is produced. -/
def parseDFFields : List (List String) → Except String (Int × Int)
  | [] => .error dfLocateErr
  | w :: ws => if dfCandidate w then dfExtract w else parseDFFields ws

/-- Modelled from the spec: `parseDFContainerOutput` of `openebs.go` is not
in the available sources; per spec §4.1 it scans the pod log line by line for
the line whose last whitespace-delimited field is the probe mount point
`/data`, and reads the available and used byte counts by counting fields
from the end of that line. -/
def parseDFContainerOutput (content : String) : Except String (Int × Int) :=
  parseDFFields ((linesOf content).map fieldsOf)

/-- A storage class as the base-path resolution consumes it: a name and a set
of string-keyed annotations (an association list, first binding wins). -/
structure StorageClass where
  name : String
  annotations : List (String × String)
  deriving Repr, DecidableEq

/-- The value of an annotation key on a storage class, if present. -/
def annotationValue (sc : StorageClass) (k : String) : Option String :=
  (sc.annotations.find? (fun p => decide (p.1 = k))).map (fun p => p.2)

/-- Whether `pre` is a prefix of `s` (Go's `strings.HasPrefix`). -/
def strHasPrefix (pre s : String) : Bool :=
  pre.data.isPrefixOf s.data

/-- `s` with the prefix `pre` removed (callers establish the prefix first). -/
def strDropPrefix (pre s : String) : String :=
  ⟨s.data.drop pre.data.length⟩

/-- A YAML scalar of the annotation's restricted shape: a token, possibly
surrounded by double quotes (the tests use `value: ""` for the empty path). -/
def yamlScalar (s : String) : String :=
  if 2 ≤ s.data.length ∧ s.data.head? = some (Char.ofNat 34) ∧
      s.data.getLast? = some (Char.ofNat 34) then
    ⟨(s.data.drop 1).dropLast⟩
  else s

/-- Modelled from the spec: the configuration annotation is decoded "as an
ordered sequence of `{name, value}` pairs (YAML)"; the decoder is restricted
to the exact shape the storage class uses (`- name: <n>` followed by
`  value: <v>` per entry), and anything else is a parse failure. -/
def parseNameValuePairs : List String → Option (List (String × String))
  | [] => some []
  | l1 :: l2 :: rest =>
    if strHasPrefix "- name: " l1 ∧ strHasPrefix "  value: " l2 then
      match parseNameValuePairs rest with
      | some ps =>
        some ((strDropPrefix "- name: " l1,
               yamlScalar (strDropPrefix "  value: " l2)) :: ps)
      | none => none
    else none
  | _ :: [] => none

/-- Decodes the openebs configuration annotation, surfacing the parse error
the tests expect when the annotation text is malformed. -/
def parseOpenEBSConfig (raw : String) :
    Except String (List (String × String)) :=
  match parseNameValuePairs (linesOf raw) with
  | none => .error "failed to parse openebs config annotation"
  | some ps => .ok ps

/-- The storage-class annotation key holding the openebs configuration. -/
def openEBSConfigKey : String :=
  "cas.openebs.io/config"

/-- The not-found error for an absent destination storage class, carrying the
Kubernetes resource-not-found text the test checks for. -/
def scNotFoundErr (dstSC : String) : String :=
  "failed to read destination storage class: storageclasses.storage.k8s.io " ++
    quoteTok dstSC ++ " not found"

/-- The error for a storage class carrying no openebs config annotation. -/
def annotationNotFoundErr : String :=
  "openebs config annotation not found in storage class"

/-- The error for a configuration with no `BasePath` entry. -/
def basePathNotDefinedErr : String :=
  "openebs base path not defined in the storage class"

/-- The error for a `BasePath` value that is empty or not absolute (the
misspelling `opeenbs` is the literal text the test expects). -/
def invalidBasePathErr (v : String) : String :=
  "invalid opeenbs base path: " ++ v

/-- Modelled from the spec: `basePath` of `openebs.go` is not in the
available sources; per spec §4.3 it fetches the destination storage class
(not-found error if absent), reads its configuration annotation (distinct
error if the key is absent), decodes it as name/value pairs (parse error if
malformed), locates the `BasePath` entry case-sensitively (distinct error if
absent), and requires the value to be a non-empty absolute path beginning
with `/` (invalid-path error otherwise). -/
def basePath (dstSC : String) (classes : List StorageClass) :
    Except String String :=
  match classes.find? (fun sc => decide (sc.name = dstSC)) with
  | none => .error (scNotFoundErr dstSC)
  | some sc =>
    match annotationValue sc openEBSConfigKey with
    | none => .error annotationNotFoundErr
    | some raw =>
      match parseOpenEBSConfig raw with
      | .error e => .error e
      | .ok cfg =>
        match cfg.find? (fun p => decide (p.1 = "BasePath")) with
        | none => .error basePathNotDefinedErr
        | some p =>
          if startsWithChar p.2 (Char.ofNat 47) then .ok p.2
          else .error (invalidBasePathErr p.2)

/-- A persistent volume as the reaper observes it: its name and an optional
claim reference naming the claim it backs. -/
structure PersistentVolume where
  name : String
  claimRef : Option String
  deriving Repr, DecidableEq

/-- A transient claim, identified by its name. -/
structure PersistentVolumeClaim where
  name : String
  deriving Repr, DecidableEq

/-- The cancellation error of the deletion wait (the exact message
`Test_deleteTmpPVCs` compares against). -/
def ctxCancelledErr : String :=
  "context cancelled"

/-- The deadline-elapsed error of the deletion wait, naming the volume that
never disappeared (the test only checks that it contains `timeout`). -/
def pvTimeoutErr (pvName : String) : String :=
  "timeout waiting for persistent volume " ++ pvName ++ " to be removed"

/-- Modelled from the spec: the deletion wait of `deleteTmpPVCs` is not in
the available sources; per spec §4.5 it polls the matching volume at a fixed
interval until it disappears, the context is cancelled, or the configured
deadline elapses.  Polling is discretised: `k` is the index of the current
poll tick, `fuel` the number of ticks remaining before the deadline;
cancellation is checked first at every tick and fails immediately, a
disappeared volume is success, and running out of ticks fails with the
timeout error naming the volume. -/
def waitForPVRemoval (cancelled gone : Nat → Bool) (pvName : String) :
    Nat → Nat → Except String Unit
  | _, 0 => .error (pvTimeoutErr pvName)
  | k, fuel + 1 =>
    if cancelled k then .error ctxCancelledErr
    else if gone k then .ok ()
    else waitForPVRemoval cancelled gone pvName (k + 1) fuel

/-- The volume backing a claim, discovered by scanning the volumes for a
claim reference naming the claim (spec §9's one-directional lookup); a
volume with no claim reference or with a different claim's name never
matches. -/
def findVolumeForClaim (vols : List PersistentVolume) (claim : String) :
    Option PersistentVolume :=
  vols.find? (fun pv => decide (pv.claimRef = some claim))

/-- Modelled from the spec: `deleteTmpPVCs` of `openebs.go` is not in the
available sources; per spec §4.5 it walks the claims sequentially, treats a
missing backing volume (or one whose claim reference does not name the
claim) as nothing to wait for, otherwise waits for the volume to be
reclaimed, and the first failure aborts the whole reap.  The environment is
abstracted into `cancelled k` (context state at poll tick `k`), `gone v k`
(whether volume `v` has disappeared by tick `k`), and `deadline` (the
checker's `deletePVTimeout`, measured in poll ticks). -/
def deleteTmpPVCs (vols : List PersistentVolume) (cancelled : Nat → Bool)
    (gone : String → Nat → Bool) (deadline : Nat) :
    List PersistentVolumeClaim → Except String Unit
  | [] => .ok ()
  | pvc :: rest =>
    match findVolumeForClaim vols pvc.name with
    | none => deleteTmpPVCs vols cancelled gone deadline rest
    | some pv =>
      match waitForPVRemoval cancelled (gone pv.name) pv.name 0 deadline with
      | .ok _ => deleteTmpPVCs vols cancelled gone deadline rest
      | .error e => .error e

end ClusterSpace

namespace ClusterSpace

/-- C1 counterexample: the claim predicts that a root-mounted sample with
`Free = 100` and `reserved = 90` yields `free = 100` (unchanged) and
`sufficient = true` (since `100 ≥ 90`); the code as pinned by its tests
instead reduces the free figure to `85` and reports insufficient space. -/
theorem hasEnoughSpace_root_margin_cex :
    hasEnoughSpace ⟨100, 0, true⟩ 90 = (85, false) ∧
      hasEnoughSpace ⟨100, 0, true⟩ 90 ≠ (100, true) := by
  constructor <;> decide

/-- C1 amended: for every root-mounted sample, `hasEnoughSpace` returns as the
free figure 85% of the sample's free bytes, truncated
(`Free * 85 / 100`), and `sufficient` holds exactly when the reservation is
strictly below that reduced figure. -/
theorem hasEnoughSpace_root_spec (vol : OpenEBSVolume) (reserved : Int)
    (h : vol.RootVolume = true) :
    (hasEnoughSpace vol reserved).1 = vol.Free * 85 / 100 ∧
      ((hasEnoughSpace vol reserved).2 = true ↔
        reserved < vol.Free * 85 / 100) := by
  simp [hasEnoughSpace, h]

/-- C1 witness: the amended root-volume rule evaluated at the test's concrete
sample `{Free := 100, Used := 0, RootVolume := true}`, `reserved = 50`. -/
theorem hasEnoughSpace_root_spec_witness :
    (hasEnoughSpace ⟨100, 0, true⟩ 50).1 = (100 : Int) * 85 / 100 ∧
      ((hasEnoughSpace ⟨100, 0, true⟩ 50).2 = true ↔
        (50 : Int) < 100 * 85 / 100) :=
  hasEnoughSpace_root_spec ⟨100, 0, true⟩ 50 rfl

/-- C4: the zero-valued sample with a zero reservation yields a zero free
figure and an insufficient verdict — absence of measurement is never treated
as enough space. -/
theorem hasEnoughSpace_zero :
    hasEnoughSpace ⟨0, 0, false⟩ 0 = (0, false) := by
  decide

/-- C5 counterexample: for the non-root sample with `Free = 100` and
`reserved = 100`, the reservation equals the returned free figure, yet
`sufficient` is `false` — the comparison boundary is exclusive, not inclusive
as the claim states. -/
theorem hasEnoughSpace_boundary_cex :
    (hasEnoughSpace ⟨100, 0, false⟩ 100).1 = 100 ∧
      (hasEnoughSpace ⟨100, 0, false⟩ 100).2 = false := by
  constructor <;> decide

/-- C5 amended: for every fixed sample, the returned free figure does not
depend on the reservation; `hasEnoughSpace` is antitone in the reservation
(lowering the reservation can only keep or gain sufficiency); and when the
reservation equals the returned free figure the verdict is insufficient (the
comparison boundary is exclusive). -/
theorem hasEnoughSpace_antitone (vol : OpenEBSVolume) (r₁ r₂ : Int)
    (hr : r₁ ≤ r₂) (h : (hasEnoughSpace vol r₂).2 = true) :
    (hasEnoughSpace vol r₁).2 = true ∧
      (hasEnoughSpace vol r₁).1 = (hasEnoughSpace vol r₂).1 ∧
      (hasEnoughSpace vol ((hasEnoughSpace vol r₂).1)).2 = false := by
  refine ⟨?_, rfl, ?_⟩
  · simp only [hasEnoughSpace, decide_eq_true_eq] at h ⊢
    exact lt_of_le_of_lt hr h
  · simp [hasEnoughSpace]

/-- C5 witness: antitonicity applied at the test sample
`{Free := 100, Used := 0, RootVolume := false}` with reservations `99 ≤ 99`. -/
theorem hasEnoughSpace_antitone_witness :
    (hasEnoughSpace ⟨100, 0, false⟩ 99).2 = true ∧
      (hasEnoughSpace ⟨100, 0, false⟩ 99).1 =
        (hasEnoughSpace ⟨100, 0, false⟩ 99).1 ∧
      (hasEnoughSpace ⟨100, 0, false⟩
          ((hasEnoughSpace ⟨100, 0, false⟩ 99).1)).2 = false :=
  hasEnoughSpace_antitone ⟨100, 0, false⟩ 99 99 (by decide) (by decide)

theorem appendMount_nodup (acc : List String) (mp : String) (h : acc.Nodup) :
    (appendMount acc mp).Nodup := by
  unfold appendMount
  split
  · exact h
  · next hm => exact h.append (List.nodup_singleton mp) (by simpa using hm)

theorem mem_appendMount {acc : List String} {mp x : String}
    (h : x ∈ appendMount acc mp) : x ∈ acc ∨ x = mp := by
  unfold appendMount at h
  split at h
  · exact Or.inl h
  · rcases List.mem_append.1 h with h | h
    · exact Or.inl h
    · exact Or.inr (List.mem_singleton.1 h)

theorem foldl_appendMount_nodup :
    ∀ (ms acc : List String), acc.Nodup → (ms.foldl appendMount acc).Nodup
  | [], _, h => h
  | _ :: ms, acc, h =>
    foldl_appendMount_nodup ms _ (appendMount_nodup acc _ h)

theorem foldl_appendMount_mem {P : String → Prop} :
    ∀ (ms acc : List String), (∀ x ∈ acc, P x) → (∀ x ∈ ms, P x) →
      ∀ x ∈ ms.foldl appendMount acc, P x
  | [], _, hacc, _, x, hx => hacc x hx
  | m :: ms, acc, hacc, hms, x, hx => by
    refine foldl_appendMount_mem ms (appendMount acc m) ?_ ?_ x hx
    · intro y hy
      rcases mem_appendMount hy with h | h
      · exact hacc y h
      · exact h ▸ hms m (List.mem_cons_self m ms)
    · exact fun y hy => hms y (List.mem_cons_of_mem m hy)

theorem fstabFold_eq : ∀ (ls acc : List String),
    ls.foldl fstabStep acc = (ls.filterMap fstabMountOf).foldl appendMount acc := by
  intro ls
  induction ls with
  | nil => intro acc; rfl
  | cons l ls ih =>
    intro acc
    cases h : fstabMountOf l with
    | none => simp [List.foldl_cons, List.filterMap_cons, h, fstabStep, ih]
    | some mp => simp [List.foldl_cons, List.filterMap_cons, h, fstabStep, ih]

theorem fstabMountOf_slash {l mp : String} (h : fstabMountOf l = some mp) :
    startsWithChar mp (Char.ofNat 47) = true := by
  unfold fstabMountOf at h
  split at h
  · exact absurd h (by simp)
  · split at h
    · next =>
      split at h
      · next hs => exact Option.some.inj h ▸ hs
      · exact absurd h (by simp)
    · exact absurd h (by simp)

/-- C2 counterexample: on the input `"x /a 0\ny /a 0"`, which lists the mount
point `/a` on two lines, the parser returns `/a` once — not twice as the
claim ("duplicates are preserved") predicts. -/
theorem parseFstab_dedup_cex :
    parseFstabContainerOutput "x /a 0\ny /a 0" = .ok ["/a"] ∧
      (["/a"] : List String) ≠ ["/a", "/a"] := by
  constructor
  · rfl
  · decide

/-- C2 amended: for every mount-table input, the parser returns, in order of
first appearance and with each distinct mount point reported at most once,
the second whitespace-delimited field of every non-blank, non-comment line,
keeping only fields that begin with `/` (which drops both `none` swap entries
and non-absolute fields), and fails with `failed to locate any mount point`
when nothing remains. -/
theorem parseFstab_spec (content : String) :
    parseFstabContainerOutput content =
      if firstOccurrences (fstabSecondFields (linesOf content)) = [] then
        .error "failed to locate any mount point"
      else .ok (firstOccurrences (fstabSecondFields (linesOf content))) := by
  unfold parseFstabContainerOutput fstabMounts firstOccurrences fstabSecondFields
  rw [fstabFold_eq]

/-- C3: every successful mount-table parse yields mount points that all begin
with `/` (a non-absolute second field such as `fuse` is silently dropped) and
contains each distinct mount point at most once; concretely, a line whose
second field is `fuse` is dropped without an error when another line yields a
valid mount point. -/
theorem parseFstab_slash_nodup (content : String) (ms : List String)
    (h : parseFstabContainerOutput content = .ok ms) :
    ms.Nodup ∧ (∀ mp ∈ ms, startsWithChar mp (Char.ofNat 47) = true) ∧
      parseFstabContainerOutput "a /x 0\nb fuse 0" = .ok ["/x"] := by
  have hms : ms = fstabMounts (linesOf content) := by
    simp only [parseFstabContainerOutput] at h
    split at h
    · exact absurd h (by simp)
    · exact (Except.ok.inj h).symm
  subst hms
  refine ⟨?_, ?_, rfl⟩
  · unfold fstabMounts
    rw [fstabFold_eq]
    exact foldl_appendMount_nodup _ _ List.nodup_nil
  · unfold fstabMounts
    rw [fstabFold_eq]
    intro mp hmp
    refine foldl_appendMount_mem
      (P := fun x => startsWithChar x (Char.ofNat 47) = true)
      _ _ (by simp) ?_ mp hmp
    intro y hy
    rcases List.mem_filterMap.1 hy with ⟨l, _, hl⟩
    exact fstabMountOf_slash hl

/-- C3 witness: the guarantees applied to the concrete parse of
`"proc /proc x\nu none swap\ns fuse y"`, which succeeds with `["/proc"]`. -/
theorem parseFstab_slash_nodup_witness :
    (["/proc"] : List String).Nodup ∧
      (∀ mp ∈ (["/proc"] : List String),
        startsWithChar mp (Char.ofNat 47) = true) ∧
      parseFstabContainerOutput "a /x 0\nb fuse 0" = .ok ["/x"] :=
  parseFstab_slash_nodup "proc /proc x\nu none swap\ns fuse y" ["/proc"] rfl

theorem parseDFFields_no_data : ∀ (ws : List (List String)),
    (∀ w ∈ ws, w.getLast? ≠ some "/data") →
    parseDFFields ws = .error dfLocateErr
  | [], _ => rfl
  | w :: ws, h => by
    have hw : w.getLast? ≠ some "/data" := h w (List.mem_cons_self w ws)
    have hc : dfCandidate w = false := by simp [dfCandidate, hw]
    simp [parseDFFields, hc,
      parseDFFields_no_data ws (fun u hu => h u (List.mem_cons_of_mem w hu))]

theorem parseDFFields_first_candidate :
    ∀ (pre : List (List String)) (w : List String) (suf : List (List String)),
      (∀ u ∈ pre, dfCandidate u = false) → dfCandidate w = true →
      parseDFFields (pre ++ w :: suf) = dfExtract w
  | [], _, _, _, hw => by simp [parseDFFields, hw]
  | u :: pre, w, suf, hpre, hw => by
    have hu : dfCandidate u = false := hpre u (List.mem_cons_self u pre)
    simp [parseDFFields, hu,
      parseDFFields_first_candidate pre w suf
        (fun v hv => hpre v (List.mem_cons_of_mem u hv)) hw]

/-- C6: the df parser reads its columns counting from the end of the matched
line, so its result survives leading blank lines and extra prefix tokens: on
the concrete probe output whose data line ends in `/data` it returns
`free = 7327760384` and `used = 52521754624` with no error; skipping any
number of blank lines leaves the scan unchanged; and prepending arbitrary
whitespace-delimited tokens to a matching line neither unmatches it nor
changes the extracted columns. -/
theorem parseDF_from_end :
    parseDFContainerOutput
        "Filesystem 1B-blocks Used Available Use% Mounted on\n/dev/sda2 63087357952 52521754624 7327760384 88% /data" =
      .ok (7327760384, 52521754624) ∧
    (∀ (n : Nat) (ws : List (List String)),
      parseDFFields (List.replicate n [] ++ ws) = parseDFFields ws) ∧
    (∀ (ps w : List String), dfCandidate w = true →
      dfCandidate (ps ++ w) = true ∧ dfExtract (ps ++ w) = dfExtract w) := by
  refine ⟨by rfl, ?_, ?_⟩
  · intro n ws
    induction n with
    | zero => rfl
    | succ n ih => simpa [List.replicate_succ, parseDFFields] using ih
  · intro ps w hw
    simp only [dfCandidate, Bool.and_eq_true, decide_eq_true_eq] at hw
    obtain ⟨h4, hl⟩ := hw
    have hne : w ≠ [] := by
      intro h
      rw [h] at hl
      exact absurd hl (by simp)
    have ha : dfAvailTok (ps ++ w) = dfAvailTok w := by
      unfold dfAvailTok
      rw [List.reverse_append,
        List.getD_append w.reverse ps.reverse "" 2
          (by rw [List.length_reverse]; omega)]
    have hu : dfUsedTok (ps ++ w) = dfUsedTok w := by
      unfold dfUsedTok
      rw [List.reverse_append,
        List.getD_append w.reverse ps.reverse "" 3
          (by rw [List.length_reverse]; omega)]
    refine ⟨?_, ?_⟩
    · simp only [dfCandidate, Bool.and_eq_true, decide_eq_true_eq]
      constructor
      · rw [List.length_append]
        omega
      · rw [List.getLast?_append_of_ne_nil ps hne]
        exact hl
    · unfold dfExtract
      rw [ha, hu]

/-- C6 witness: the prefix-insensitivity part applied to the concrete matched
line of the happy-path test, with two extra prefix tokens prepended. -/
theorem parseDF_from_end_witness :
    dfCandidate (["pre1", "pre2"] ++
        ["/dev/sda2", "63087357952", "52521754624", "7327760384", "88%", "/data"]) = true ∧
      dfExtract (["pre1", "pre2"] ++
          ["/dev/sda2", "63087357952", "52521754624", "7327760384", "88%", "/data"]) =
        dfExtract ["/dev/sda2", "63087357952", "52521754624", "7327760384", "88%", "/data"] :=
  parseDF_from_end.2.2 ["pre1", "pre2"]
    ["/dev/sda2", "63087357952", "52521754624", "7327760384", "88%", "/data"] (by decide)

/-- C7: when no line of the df output has `/data` as its last
whitespace-delimited field, parsing fails with the locate error; when the
first matching line's available-space token (third from the end) is not a
plain base-10 integer, parsing fails with the error naming that token as
available space; and when the available token parses but the used-space
token (fourth from the end) does not, parsing fails with the error naming
that token as used space. -/
theorem parseDF_error_cases :
    (∀ content : String,
      (∀ l ∈ linesOf content, (fieldsOf l).getLast? ≠ some "/data") →
      parseDFContainerOutput content = .error dfLocateErr) ∧
    (∀ (pre : List (List String)) (w : List String) (suf : List (List String)),
      (∀ u ∈ pre, dfCandidate u = false) → dfCandidate w = true →
      parseInt64 (dfAvailTok w) = none →
      parseDFFields (pre ++ w :: suf) = .error (dfAvailErr (dfAvailTok w))) ∧
    (∀ (pre : List (List String)) (w : List String) (suf : List (List String))
      (v : Int),
      (∀ u ∈ pre, dfCandidate u = false) → dfCandidate w = true →
      parseInt64 (dfAvailTok w) = some v →
      parseInt64 (dfUsedTok w) = none →
      parseDFFields (pre ++ w :: suf) = .error (dfUsedErr (dfUsedTok w))) := by
  refine ⟨?_, ?_, ?_⟩
  · intro content h
    unfold parseDFContainerOutput
    apply parseDFFields_no_data
    intro w hw
    rcases List.mem_map.1 hw with ⟨l, hl, rfl⟩
    exact h l hl
  · intro pre w suf hpre hw ha
    rw [parseDFFields_first_candidate pre w suf hpre hw]
    simp [dfExtract, ha]
  · intro pre w suf v hpre hw ha hu
    rw [parseDFFields_first_candidate pre w suf hpre hw]
    simp [dfExtract, ha, hu]

/-- C7 witness: the three error modes at the concrete test inputs — the
gibberish content with no `/data` line, the human-readable available column
`6.9G`, and the human-readable used column `49G`. -/
theorem parseDF_error_cases_witness :
    parseDFContainerOutput "...---...---...<<<<>>>>>>" = .error dfLocateErr ∧
      parseDFFields [fieldsOf "Filesystem Size Used Avail Use% Mounted on",
          fieldsOf "/dev/sda2 59G 49G 6.9G 88% /data"] =
        .error (dfAvailErr "6.9G") ∧
      parseDFFields [fieldsOf "/dev/sda2 59G 49G 100 88% /data"] =
        .error (dfUsedErr "49G") := by
  refine ⟨?_, ?_, ?_⟩
  · exact parseDF_error_cases.1 "...---...---...<<<<>>>>>>" (by decide)
  · exact parseDF_error_cases.2.1
      [fieldsOf "Filesystem Size Used Avail Use% Mounted on"]
      (fieldsOf "/dev/sda2 59G 49G 6.9G 88% /data") []
      (by decide) (by decide) (by decide)
  · exact parseDF_error_cases.2.2 []
      (fieldsOf "/dev/sda2 59G 49G 100 88% /data") [] 100
      (by decide) (by decide) (by decide) (by decide)

/-- Sanity check: the remaining `Test_parseDFContainerOutput` vectors under
the model — empty content, a short line ending in `/data` (three fields do
not match), a five-token line ending in `/data`, a blank line inside the
content, and prefix tokens on the data line. -/
theorem parseDF_test_vectors :
    parseDFContainerOutput "" = .error dfLocateErr ∧
      parseDFContainerOutput "something weird /data" = .error dfLocateErr ∧
      parseDFContainerOutput "this is a failure /data" =
        .error (dfAvailErr "a") ∧
      parseDFContainerOutput
          "Filesystem 1B-blocks Used Available Use% Mounted on\n\n/dev/sda2 63087357952 52521754624 7327760384 88% /data" =
        .ok (7327760384, 52521754624) ∧
      parseDFContainerOutput
          "Filesystem 1B-blocks Used Available Use% Mounted on\nsome prefixes go in here /dev/sda2 63087357952 52521754624 7327760384 88% /data" =
        .ok (7327760384, 52521754624) :=
  ⟨rfl, rfl, rfl, rfl, rfl⟩

/-- C8: base-path resolution returns the `BasePath` value with no error
whenever the destination storage class is found, its configuration
annotation is present and decodes, a `BasePath` entry exists and its value
begins with `/`; each failure case returns its own error (storage class
absent, annotation key absent, malformed annotation, no `BasePath` entry,
empty or non-absolute value), the five errors being pairwise distinct. -/
theorem basePath_cases :
    (∀ (dstSC : String) (classes : List StorageClass) (sc : StorageClass)
      (raw : String) (cfg : List (String × String)) (p : String × String),
      classes.find? (fun sc => decide (sc.name = dstSC)) = some sc →
      annotationValue sc openEBSConfigKey = some raw →
      parseOpenEBSConfig raw = .ok cfg →
      cfg.find? (fun p => decide (p.1 = "BasePath")) = some p →
      startsWithChar p.2 (Char.ofNat 47) = true →
      basePath dstSC classes = .ok p.2) ∧
    basePath "does-not-exist" [] = .error (scNotFoundErr "does-not-exist") ∧
    basePath "default" [⟨"default", []⟩] = .error annotationNotFoundErr ∧
    basePath "default"
        [⟨"default", [(openEBSConfigKey, "...---...<<>>")]⟩] =
      .error "failed to parse openebs config annotation" ∧
    basePath "default"
        [⟨"default", [(openEBSConfigKey, "- name: abc\n  value: cba")]⟩] =
      .error basePathNotDefinedErr ∧
    basePath "default"
        [⟨"default",
          [(openEBSConfigKey, "- name: BasePath\n  value: \"\"")]⟩] =
      .error (invalidBasePathErr "") ∧
    basePath "default"
        [⟨"default",
          [(openEBSConfigKey, "- name: BasePath\n  value: invalid")]⟩] =
      .error (invalidBasePathErr "invalid") ∧
    basePath "default"
        [⟨"default",
          [(openEBSConfigKey, "- name: BasePath\n  value: /var/local")]⟩] =
      .ok "/var/local" ∧
    [scNotFoundErr "does-not-exist", annotationNotFoundErr,
      "failed to parse openebs config annotation", basePathNotDefinedErr,
      invalidBasePathErr "invalid"].Nodup := by
  refine ⟨?_, rfl, rfl, rfl, rfl, rfl, rfl, rfl, by decide⟩
  intro dstSC classes sc raw cfg p hsc hann hcfg hp hv
  unfold basePath
  simp only [hsc, hann, hcfg, hp, hv, if_true]

/-- C8 witness: the generic success rule applied to the happy-path fixture,
whose annotation decodes to a single `BasePath = /var/local` entry. -/
theorem basePath_cases_witness :
    basePath "default"
        [⟨"default",
          [(openEBSConfigKey, "- name: BasePath\n  value: /var/local")]⟩] =
      .ok ("BasePath", "/var/local").2 :=
  basePath_cases.1 "default"
    [⟨"default",
      [(openEBSConfigKey, "- name: BasePath\n  value: /var/local")]⟩]
    ⟨"default",
      [(openEBSConfigKey, "- name: BasePath\n  value: /var/local")]⟩
    "- name: BasePath\n  value: /var/local" [("BasePath", "/var/local")]
    ("BasePath", "/var/local") rfl rfl rfl rfl rfl

theorem waitForPVRemoval_timeout (cancelled gone : Nat → Bool)
    (pvName : String) :
    ∀ (fuel k : Nat),
      (∀ j, k ≤ j → j < k + fuel → cancelled j = false ∧ gone j = false) →
      waitForPVRemoval cancelled gone pvName k fuel = .error (pvTimeoutErr pvName)
  | 0, _, _ => rfl
  | fuel + 1, k, h => by
    have hk := h k (le_refl k) (by omega)
    simp only [waitForPVRemoval, hk.1, hk.2, Bool.false_eq_true, if_false]
    exact waitForPVRemoval_timeout cancelled gone pvName fuel (k + 1)
      (fun j hj1 hj2 => h j (by omega) (by omega))

theorem waitForPVRemoval_cancelled (cancelled gone : Nat → Bool)
    (pvName : String) :
    ∀ (fuel k c : Nat), k ≤ c → c < k + fuel → cancelled c = true →
      (∀ j, k ≤ j → j < c → cancelled j = false ∧ gone j = false) →
      waitForPVRemoval cancelled gone pvName k fuel = .error ctxCancelledErr
  | 0, k, c, hkc, hc, _, _ => absurd hc (by omega)
  | fuel + 1, k, c, hkc, hc, hcanc, hbefore => by
    by_cases hk : c = k
    · subst hk
      simp only [waitForPVRemoval, hcanc, if_true]
    · have hlt : k < c := lt_of_le_of_ne hkc (Ne.symm hk)
      have h1 := hbefore k (le_refl k) hlt
      simp only [waitForPVRemoval, h1.1, h1.2, Bool.false_eq_true, if_false]
      exact waitForPVRemoval_cancelled cancelled gone pvName fuel (k + 1) c
        (by omega) (by omega) hcanc
        (fun j hj1 hj2 => hbefore j (by omega) hj2)

/-- C9: when `deleteTmpPVCs` is waiting on a claim whose backing volume is
present and referenced, cancelling the context at any poll tick before the
deadline (the volume not having disappeared) fails the reap with the
`context cancelled` error; letting the deadline elapse with the volume never
disappearing and the context never cancelled fails it with the timeout error
naming the volume; and the two error messages are distinct for every volume
name. -/
theorem deleteTmpPVCs_cancel_timeout
    (vols : List PersistentVolume) (cancelled : Nat → Bool)
    (gone : String → Nat → Bool) (deadline : Nat)
    (pvc : PersistentVolumeClaim) (pv : PersistentVolume)
    (hfind : findVolumeForClaim vols pvc.name = some pv) :
    ((∀ j, j < deadline → cancelled j = false ∧ gone pv.name j = false) →
      deleteTmpPVCs vols cancelled gone deadline [pvc] =
        .error (pvTimeoutErr pv.name)) ∧
    (∀ c, c < deadline → cancelled c = true →
      (∀ j, j < c → cancelled j = false ∧ gone pv.name j = false) →
      deleteTmpPVCs vols cancelled gone deadline [pvc] =
        .error ctxCancelledErr) ∧
    ctxCancelledErr ≠ pvTimeoutErr pv.name := by
  refine ⟨?_, ?_, ?_⟩
  · intro h
    have hw := waitForPVRemoval_timeout cancelled (gone pv.name) pv.name
      deadline 0 (fun j _ hj => h j (by omega))
    simp [deleteTmpPVCs, hfind, hw]
  · intro c hc hcanc hbefore
    have hw := waitForPVRemoval_cancelled cancelled (gone pv.name) pv.name
      deadline 0 c (by omega) (by omega) hcanc
      (fun j _ hj => hbefore j hj)
    simp [deleteTmpPVCs, hfind, hw]
  · intro h
    have h2 : (some 'c' : Option Char) = some 't' :=
      congrArg (fun s => s.data.head?) h
    exact absurd h2 (by decide)

/-- C9 witness: with one claim `pvc0` backed by volume `pv`, a context
cancelled from tick 0 yields the cancellation error, and an
always-present volume with a never-cancelled context yields the timeout
error naming `pv`, within a three-tick deadline. -/
theorem deleteTmpPVCs_cancel_timeout_witness :
    deleteTmpPVCs [⟨"pv", some "pvc0"⟩] (fun _ => true) (fun _ _ => false) 3
        [⟨"pvc0"⟩] = .error ctxCancelledErr ∧
      deleteTmpPVCs [⟨"pv", some "pvc0"⟩] (fun _ => false) (fun _ _ => false) 3
        [⟨"pvc0"⟩] = .error (pvTimeoutErr "pv") := by
  constructor
  · exact (deleteTmpPVCs_cancel_timeout [⟨"pv", some "pvc0"⟩] (fun _ => true)
      (fun _ _ => false) 3 ⟨"pvc0"⟩ ⟨"pv", some "pvc0"⟩ rfl).2.1 0 (by omega)
      rfl (fun j hj => absurd hj (by omega))
  · exact (deleteTmpPVCs_cancel_timeout [⟨"pv", some "pvc0"⟩] (fun _ => false)
      (fun _ _ => false) 3 ⟨"pvc0"⟩ ⟨"pv", some "pvc0"⟩ rfl).1
      (fun j _ => ⟨rfl, rfl⟩)

/-- C10: `deleteTmpPVCs` succeeds without error on an empty set of claims
for every environment, and succeeds whenever no volume's claim reference
names any of the given claims — covering a missing volume, a volume with no
claim reference, and a volume referencing a different claim; repeated
cleanup of already-gone resources is therefore not an error. -/
theorem deleteTmpPVCs_nothing_to_wait :
    (∀ (vols : List PersistentVolume) (cancelled : Nat → Bool)
      (gone : String → Nat → Bool) (deadline : Nat),
      deleteTmpPVCs vols cancelled gone deadline [] = .ok ()) ∧
    (∀ (vols : List PersistentVolume) (cancelled : Nat → Bool)
      (gone : String → Nat → Bool) (deadline : Nat)
      (pvcs : List PersistentVolumeClaim),
      (∀ pvc ∈ pvcs, ∀ pv ∈ vols, pv.claimRef ≠ some pvc.name) →
      deleteTmpPVCs vols cancelled gone deadline pvcs = .ok ()) := by
  refine ⟨fun _ _ _ _ => rfl, ?_⟩
  intro vols cancelled gone deadline pvcs
  induction pvcs with
  | nil => intro _; rfl
  | cons pvc rest ih =>
    intro h
    have hfind : findVolumeForClaim vols pvc.name = none := by
      apply List.find?_eq_none.2
      intro pv hpv
      simpa using h pvc (List.mem_cons_self pvc rest) pv hpv
    simp [deleteTmpPVCs, hfind,
      ih (fun q hq pv hpv => h q (List.mem_cons_of_mem pvc hq) pv hpv)]

/-- C10 witness: the empty claim set, and a claim `pvc0` against a store
holding one volume with no claim reference and one volume referencing the
unrelated claim `abc`, both succeed. -/
theorem deleteTmpPVCs_nothing_to_wait_witness :
    deleteTmpPVCs [] (fun _ => false) (fun _ _ => false) 1 [] = .ok () ∧
      deleteTmpPVCs [⟨"pv1", none⟩, ⟨"pv2", some "abc"⟩] (fun _ => false)
        (fun _ _ => false) 1 [⟨"pvc0"⟩] = .ok () := by
  constructor
  · exact deleteTmpPVCs_nothing_to_wait.1 [] (fun _ => false)
      (fun _ _ => false) 1
  · exact deleteTmpPVCs_nothing_to_wait.2 [⟨"pv1", none⟩, ⟨"pv2", some "abc"⟩]
      (fun _ => false) (fun _ _ => false) 1 [⟨"pvc0"⟩] (by decide)

end ClusterSpace
